import Mathlib

/-!
Verification of the web-sqlite-playground OPFS storage core.

The repository ships the documentation and the browser test-suite of the
OPFS handle-pool subsystem (`installOpfsSAHPoolVfs` and the `sqlite3.opfs`
directory utilities); the implementation itself is loaded from the wasm
bundle and is not part of the source tree.  The definitions below are
therefore modelled from the specification (spec.md) of that subsystem,
faithful to its words, and the theorems settle the frozen claims against
that model.
-/

namespace WebSqlite

/-- A byte buffer, modelled as a list of naturals. -/
abbrev Bytes := List Nat

/-- Modelled from the spec: the error taxonomy of §7 restricted to the
codes the claims need (`Misuse`, `Busy`, `CapacityExceeded`, `NotFound`,
`CantOpen`). -/
inductive PoolErr where
  | Misuse
  | Busy
  | CapacityExceeded
  | NotFound
  | CantOpen
  deriving DecidableEq

/-- Association-list lookup keyed by decidable equality (used for the
slot table, the registry and the instance map). -/
def alookup {α β : Type} [DecidableEq α] (k : α) : List (α × β) → Option β
  | [] => none
  | (k', v) :: rest => if k' = k then some v else alookup k rest

/-- Association-list update: replaces the first binding of `k`, or appends
a fresh binding when none exists. -/
def aset {α β : Type} [DecidableEq α] (k : α) (v : β) : List (α × β) → List (α × β)
  | [] => [(k, v)]
  | (k', v') :: rest => if k' = k then (k', v) :: rest else (k', v') :: aset k v rest

/-- Removes the first occurrence of `x` from a list of names (closing one
descriptor of a file that may be open several times). -/
def removeFirst (x : String) : List String → List String
  | [] => []
  | y :: rest => if y = x then rest else y :: removeFirst x rest

/-- Modelled from the spec: the state of one handle pool (§3 Pool Slot,
§4.1).  `files` is the slot table mapping each associated filename to the
bytes stored in its slot; `openFiles` lists the filenames currently open
through the pool (one entry per open descriptor); `paused` and
`registered` track pause/resume and whether the pool's VFS is currently
findable by name; `removed` records that `removeVfs` has torn the pool
down. -/
structure PoolState where
  capacity : Nat
  files : List (String × Bytes)
  openFiles : List String
  paused : Bool
  registered : Bool
  removed : Bool
  deriving DecidableEq

/-- Modelled from the spec: a freshly initialized pool with the given
capacity — no associated slots, no open files, VFS registered. -/
def initialPool (c : Nat) : PoolState :=
  { capacity := c, files := [], openFiles := [], paused := false,
    registered := true, removed := false }

/-- Modelled from the spec: `getCapacity()` returns the configured slot
count (§6). -/
def getCapacity (p : PoolState) : Nat := p.capacity

/-- Modelled from the spec: `getFileCount()` counts the filenames
currently associated with slots (§6). -/
def getFileCount (p : PoolState) : Nat := p.files.length

/-- Modelled from the spec: `getFileNames()` lists the filenames
currently associated with slots (§6). -/
def getFileNames (p : PoolState) : List String := p.files.map Prod.fst

/-- Number of slots not currently associated with a filename. -/
def freeSlotCount (p : PoolState) : Nat := p.capacity - p.files.length

/-- Modelled from the spec: `addCapacity(n)` grows the slot count (§4.1)
and returns the new capacity (the test-suite asserts
`getCapacity() + 2 === addCapacity(2)`). -/
def addCapacity (p : PoolState) (n : Nat) : Nat × PoolState :=
  (p.capacity + n, { p with capacity := p.capacity + n })

/-- Modelled from the spec: `reduceCapacity(n)` shrinks the slot count,
failing with `Busy` when fewer than `n` slots are free (§4.1); on success
it returns the number of slots removed. -/
def reduceCapacity (p : PoolState) (n : Nat) : Except PoolErr (Nat × PoolState) :=
  if n ≤ freeSlotCount p then
    .ok (n, { p with capacity := p.capacity - n })
  else
    .error .Busy

/-- Modelled from the spec: `pause()` fails with `Misuse` when any file is
open through the pool, leaving the state untouched; otherwise it marks the
pool paused and detaches its registered backend (§4.1). -/
def pauseVfs (p : PoolState) : Option PoolErr × PoolState :=
  if p.openFiles.isEmpty then
    (none, { p with paused := true, registered := false })
  else
    (some .Misuse, p)

/-- Modelled from the spec: `resume()` is a no-op when the pool is
already active; when paused it re-registers the backend (§4.1). -/
def unpauseVfs (p : PoolState) : PoolState :=
  if p.paused then { p with paused := false, registered := true } else p

/-- Modelled from the spec: opening a database through the pool fails
with `CantOpen` when the pool's VFS is not registered (no such vfs),
reuses the slot already associated with the filename when one exists,
allocates a free slot otherwise, and fails with `CapacityExceeded` when
no slot is free (§4.1 `acquireSlotFor`). -/
def openDb (p : PoolState) (name : String) : Option PoolErr × PoolState :=
  if p.registered then
    match alookup name p.files with
    | some _ => (none, { p with openFiles := name :: p.openFiles })
    | none =>
        if p.files.length < p.capacity then
          (none, { p with files := aset name [] p.files,
                          openFiles := name :: p.openFiles })
        else
          (some .CapacityExceeded, p)
  else
    (some .CantOpen, p)

/-- Modelled from the spec: closing a database releases the open
descriptor while the slot (and the persisted bytes) survive (§4.1,
end-to-end scenario of §8). -/
def closeDb (p : PoolState) (name : String) : PoolState :=
  { p with openFiles := removeFirst name p.openFiles }

/-- Modelled from the spec: the relational engine writing rows into the
database file of an open connection — the stored content grows by the
inserted rows (SQL semantics are out of scope, so a table is abstracted
to its list of rows persisted in the slot). -/
def insertRows (p : PoolState) (name : String) (rows : Bytes) : PoolState :=
  { p with files := aset name ((alookup name p.files).getD [] ++ rows) p.files }

/-- Modelled from the spec: the row count a query reports over the
database file, i.e. the length of its persisted content. -/
def rowCount (p : PoolState) (name : String) : Nat :=
  ((alookup name p.files).getD []).length

/-- Modelled from the spec: `exportFile(name)` copies the bytes out of
the slot associated with `name` (§4.1 `exportBytes`). -/
def exportFile (p : PoolState) (name : String) : Option Bytes :=
  alookup name p.files

/-- Modelled from the spec: `importDb(name, bytes)` with a whole buffer
stores the bytes under `name` and returns the total bytes written, equal
to the source length (§4.1 `importBytes`). -/
def importDb (p : PoolState) (name : String) (src : Bytes) : Nat × PoolState :=
  (src.length, { p with files := aset name src p.files })

/-- Modelled from the spec: the pull-driven import loop — repeatedly ask
the producer for the next chunk, append it at the current end of the
file, and accumulate the bytes written, until the end-of-data signal
(the end of the finite chunk sequence, §9 design note). -/
def pullChunks (acc : Bytes) : List Bytes → Nat × Bytes
  | [] => (0, acc)
  | c :: rest =>
      let (n, out) := pullChunks (acc ++ c) rest
      (c.length + n, out)

/-- Modelled from the spec: `importDb(name, chunkProducer)` drives the
pull loop from an empty file and stores the accumulated bytes under
`name`, returning the total bytes written (§4.1 `importBytes`). -/
def importDbChunked (p : PoolState) (name : String) (chunks : List Bytes) :
    Nat × PoolState :=
  let (n, data) := pullChunks [] chunks
  (n, { p with files := aset name data p.files })

/-- Modelled from the spec: `removeVfs()` unregisters the pool's VFS and
tears the pool down, returning `true`; on a pool already removed it is a
`false`-returning no-op (§6). -/
def removeVfs (p : PoolState) : Bool × PoolState :=
  if p.removed then
    (false, p)
  else
    (true, { p with removed := true, registered := false })

/-- Modelled from the spec: the configuration object handed to
`installOpfsSAHPoolVfs` — a pool name, the requested capacity, a
test-only hook that makes the second init phase throw a given error
value, and the forced-reinit flag (§4.1, §9 design note on cached failed
initialization). -/
structure PoolConfig where
  name : String
  initialCapacity : Nat
  throwInInit : Option Nat
  forceReinitIfPreviouslyFailed : Bool
  deriving DecidableEq

/-- Modelled from the spec: the process-wide registry mapping each pool
name to its memoized outcome — either the error value the failed
initialization produced or the id of the single underlying pool instance
— together with the instance map and a fresh-id counter (§4.1
initialization races, §9). -/
structure Registry where
  entries : List (String × Except Nat Nat)
  instances : List (Nat × PoolState)
  nextId : Nat

/-- Modelled from the spec: actually running pool initialization — when
the test hook is armed the init throws and the error value is cached;
otherwise a fresh instance is created, registered and cached (§4.1). -/
def runInit (r : Registry) (cfg : PoolConfig) : Registry × Except Nat Nat :=
  match cfg.throwInInit with
  | some e =>
      ({ r with entries := aset cfg.name (.error e) r.entries }, .error e)
  | none =>
      ({ entries := aset cfg.name (.ok r.nextId) r.entries,
         instances := aset r.nextId (initialPool cfg.initialCapacity) r.instances,
         nextId := r.nextId + 1 },
       .ok r.nextId)

/-- Modelled from the spec: `installOpfsSAHPoolVfs` — a memoized
success is returned to every caller of the same name; a memoized failure
is replayed verbatim unless the forced-reinit flag is set, in which case
initialization is retried; an unknown name initializes afresh (§4.1,
§7). -/
def installPool (r : Registry) (cfg : PoolConfig) : Registry × Except Nat Nat :=
  match alookup cfg.name r.entries with
  | some (.ok id) => (r, .ok id)
  | some (.error e) =>
      if cfg.forceReinitIfPreviouslyFailed then runInit r cfg else (r, .error e)
  | none => runInit r cfg

/-- Reads the capacity of the pool instance `id` through the registry. -/
def regGetCapacity (r : Registry) (id : Nat) : Nat :=
  ((alookup id r.instances).getD (initialPool 0)).capacity

/-- Applies `addCapacity n` to the pool instance `id` through the
registry. -/
def regAddCapacity (r : Registry) (id : Nat) (n : Nat) : Registry :=
  match alookup id r.instances with
  | some p => { r with instances := aset id (addCapacity p n).2 r.instances }
  | none => r

/-- Modelled from the spec: a node of the origin-private file-system
tree — a file with its bytes, or a directory with named children (§4.2
directory helpers). -/
inductive Entry where
  | file (content : Bytes)
  | dir (children : List (String × Entry))

/-- Removes every child named `n` from a directory listing. -/
def removeNamed (n : String) : List (String × Entry) → List (String × Entry)
  | [] => []
  | (k, v) :: rest =>
      if k = n then removeNamed n rest else (k, v) :: removeNamed n rest

/-- Replaces the first child named `n` of a directory listing by `e`. -/
def replaceNamed (n : String) (e : Entry) : List (String × Entry) → List (String × Entry)
  | [] => []
  | (k, v) :: rest =>
      if k = n then (k, e) :: rest else (k, v) :: replaceNamed n e rest

/-- Resolves a path (a non-empty list of names) in a directory listing. -/
def lookupAt (es : List (String × Entry)) : List String → Option Entry
  | [] => none
  | [n] => alookup n es
  | n :: rest =>
      match alookup n es with
      | some (.dir cs) => lookupAt cs rest
      | _ => none

/-- Modelled from the spec: `unlink(path, recursive?)` of the directory
utilities (§4.2, §6) — returns `false` and leaves the tree untouched
when nothing was deleted (missing entry, or a non-empty directory
without the recursive flag); deletes the entry and returns `true`
otherwise. -/
def unlinkAt (es : List (String × Entry)) (path : List String) (recursive : Bool) :
    Bool × List (String × Entry) :=
  match path with
  | [] => (false, es)
  | [n] =>
      match alookup n es with
      | none => (false, es)
      | some (.file _) => (true, removeNamed n es)
      | some (.dir cs) =>
          if cs.isEmpty || recursive then (true, removeNamed n es) else (false, es)
  | n :: rest =>
      match alookup n es with
      | some (.dir cs) =>
          match unlinkAt cs rest recursive with
          | (true, cs') => (true, replaceNamed n (.dir cs') es)
          | (false, _) => (false, es)
      | _ => (false, es)

theorem alookup_aset_self {α β : Type} [DecidableEq α] (k : α) (v : β) (l : List (α × β)) :
    alookup k (aset k v l) = some v := by
  induction l with
  | nil => simp [aset, alookup]
  | cons hd tl ih =>
    obtain ⟨k', v'⟩ := hd
    by_cases h : k' = k
    · simp [aset, alookup, h]
    · simp [aset, alookup, h, ih]

theorem alookup_aset_of_ne {α β : Type} [DecidableEq α] (k k' : α) (v : β)
    (l : List (α × β)) (h : k' ≠ k) : alookup k' (aset k v l) = alookup k' l := by
  induction l with
  | nil => simp [aset, alookup, Ne.symm h]
  | cons hd tl ih =>
    obtain ⟨k₀, v₀⟩ := hd
    by_cases h₀ : k₀ = k
    · subst h₀
      simp [aset, alookup, Ne.symm h]
    · simp [aset, alookup, h₀, ih]

theorem pullChunks_eq (chunks : List Bytes) :
    ∀ acc : Bytes, pullChunks acc chunks = (chunks.flatten.length, acc ++ chunks.flatten) := by
  induction chunks with
  | nil => intro acc; simp [pullChunks]
  | cons c rest ih =>
    intro acc
    simp [pullChunks, ih, List.append_assoc]

theorem alookup_removeNamed (n : String) (es : List (String × Entry)) :
    alookup n (removeNamed n es) = none := by
  induction es with
  | nil => simp [removeNamed, alookup]
  | cons hd tl ih =>
    obtain ⟨k, v⟩ := hd
    by_cases h : k = n
    · simp [removeNamed, h, ih]
    · simp [removeNamed, alookup, h, ih]

theorem alookup_replaceNamed (n : String) (e : Entry) (es : List (String × Entry))
    (h : (alookup n es).isSome = true) :
    alookup n (replaceNamed n e es) = some e := by
  induction es with
  | nil => simp [alookup] at h
  | cons hd tl ih =>
    obtain ⟨k, v⟩ := hd
    by_cases hk : k = n
    · simp [replaceNamed, alookup, hk]
    · simp [alookup, hk] at h
      simp [replaceNamed, alookup, hk, ih h]

theorem unlinkAt_false_eq (es : List (String × Entry)) (path : List String)
    (rec : Bool) (h : (unlinkAt es path rec).1 = false) :
    (unlinkAt es path rec).2 = es := by
  induction path generalizing es with
  | nil => simp [unlinkAt]
  | cons n rest ih =>
    cases rest with
    | nil =>
      simp only [unlinkAt] at h ⊢
      cases hl : alookup n es with
      | none => simp [hl]
      | some e =>
        cases e with
        | file c => simp [hl] at h
        | dir cs =>
          simp only [hl] at h ⊢
          by_cases hc : (cs.isEmpty || rec) = true
          · simp [hc] at h
          · simp [hc]
    | cons m ms =>
      simp only [unlinkAt] at h ⊢
      cases hl : alookup n es with
      | none => simp [hl]
      | some e =>
        cases e with
        | file c => simp [hl]
        | dir cs =>
          simp only [hl] at h ⊢
          cases hrec : unlinkAt cs (m :: ms) rec with
          | mk b cs' =>
            cases b with
            | true => simp [hrec] at h
            | false => simp [hrec]

theorem unlinkAt_of_lookup_none (es : List (String × Entry)) (path : List String)
    (rec : Bool) (h : lookupAt es path = none) :
    unlinkAt es path rec = (false, es) := by
  induction path generalizing es with
  | nil => simp [unlinkAt]
  | cons n rest ih =>
    cases rest with
    | nil =>
      simp only [lookupAt] at h
      simp [unlinkAt, h]
    | cons m ms =>
      simp only [lookupAt] at h
      simp only [unlinkAt]
      cases hl : alookup n es with
      | none => simp
      | some e =>
        cases e with
        | file c => simp
        | dir cs =>
          simp only [hl] at h
          simp [ih cs h]

theorem unlinkAt_true_lookup (es : List (String × Entry)) (path : List String)
    (rec : Bool) (h : (unlinkAt es path rec).1 = true) :
    (lookupAt es path).isSome = true ∧
      lookupAt (unlinkAt es path rec).2 path = none := by
  induction path generalizing es with
  | nil => simp [unlinkAt] at h
  | cons n rest ih =>
    cases rest with
    | nil =>
      simp only [unlinkAt] at h ⊢
      cases hl : alookup n es with
      | none => simp [hl] at h
      | some e =>
        cases e with
        | file c =>
          simp only [hl]
          exact ⟨by simp [lookupAt, hl], by simp [lookupAt, alookup_removeNamed]⟩
        | dir cs =>
          simp only [hl] at h ⊢
          by_cases hc : (cs.isEmpty || rec) = true
          · simp only [hc, if_true]
            exact ⟨by simp [lookupAt, hl], by simp [lookupAt, alookup_removeNamed]⟩
          · simp [hc] at h
    | cons m ms =>
      simp only [unlinkAt] at h ⊢
      cases hl : alookup n es with
      | none => simp [hl] at h
      | some e =>
        cases e with
        | file c => simp [hl] at h
        | dir cs =>
          simp only [hl] at h ⊢
          cases hrec : unlinkAt cs (m :: ms) rec with
          | mk b cs' =>
            cases b with
            | false => simp [hrec] at h
            | true =>
              obtain ⟨h1, h2⟩ := ih cs (by simp [hrec])
              rw [hrec] at h2
              refine ⟨by simp [lookupAt, hl, h1], ?_⟩
              have hrepl : alookup n (replaceNamed n (Entry.dir cs') es) =
                  some (Entry.dir cs') :=
                alookup_replaceNamed n _ es (by simp [hl])
              simp [lookupAt, hrepl, h2]

theorem unlinkAt_nonempty_dir (es : List (String × Entry)) (path : List String)
    (cs : List (String × Entry)) (h : lookupAt es path = some (.dir cs))
    (hcs : cs ≠ []) : unlinkAt es path false = (false, es) := by
  induction path generalizing es with
  | nil => simp [lookupAt] at h
  | cons n rest ih =>
    cases rest with
    | nil =>
      simp only [lookupAt] at h
      have : cs.isEmpty = false := by
        cases cs with
        | nil => exact absurd rfl hcs
        | cons a b => rfl
      simp [unlinkAt, h, this]
    | cons m ms =>
      simp only [lookupAt] at h
      simp only [unlinkAt]
      cases hl : alookup n es with
      | none => simp [hl] at h
      | some e =>
        cases e with
        | file c => simp [hl] at h
        | dir cs₀ =>
          simp only [hl] at h
          simp [ih cs₀ h]

/-- Claim C2: for a file `f` present in the pool, exporting its bytes and
importing them under a fresh name reproduces byte-identical content — the
copy holds exactly the bytes of `f`, so queries over the copy return the
same results as over `f` — and `importDb` returns a bytes-written count
equal to the source buffer's byte length. -/
theorem c2_export_import_roundtrip (p : PoolState) (f g : String) (bytes : Bytes)
    (hf : exportFile p f = some bytes)
    (_hfresh : alookup g p.files = none)
    (hne : g ≠ f) :
    (importDb p g bytes).1 = bytes.length ∧
      alookup g (importDb p g bytes).2.files = some bytes ∧
      alookup f (importDb p g bytes).2.files = some bytes := by
  refine ⟨rfl, ?_, ?_⟩
  · simp [importDb, alookup_aset_self]
  · have := alookup_aset_of_ne g f bytes p.files hne.symm
    simpa [importDb, this, exportFile] using hf

/-- Witness for C2: exporting the 4-byte file `/a.db` and importing it as
the fresh `/b.db` copies the bytes exactly and reports 4 bytes written. -/
theorem c2_export_import_roundtrip_witness :
    (importDb { initialPool 6 with files := [("/a.db", [7, 8, 9, 10])] }
        "/b.db" [7, 8, 9, 10]).1 = 4 ∧
      alookup "/b.db" (importDb { initialPool 6 with files := [("/a.db", [7, 8, 9, 10])] }
        "/b.db" [7, 8, 9, 10]).2.files = some [7, 8, 9, 10] ∧
      alookup "/a.db" (importDb { initialPool 6 with files := [("/a.db", [7, 8, 9, 10])] }
        "/b.db" [7, 8, 9, 10]).2.files = some [7, 8, 9, 10] :=
  c2_export_import_roundtrip _ "/a.db" "/b.db" [7, 8, 9, 10]
    (by decide) (by decide) (by decide)

/-- Claim C3: importing a source through a pull-based chunk producer (a
finite sequence of sub-buffers ended by the end-of-data signal) writes
identical bytes and returns the identical total bytes-written count as
importing the concatenation of those chunks as one whole buffer. -/
theorem c3_chunked_import_equiv (p : PoolState) (name : String) (chunks : List Bytes) :
    importDbChunked p name chunks = importDb p name chunks.flatten := by
  simp [importDbChunked, importDb, pullChunks_eq]

/-- Claim C5: pausing a pool while at least one file is open through the
pool fails with `Misuse` and leaves the pool state (in particular its
paused flag) untouched; pausing a pool with zero open files succeeds and
marks it paused. -/
theorem c5_pause_precondition (p : PoolState) :
    (p.openFiles ≠ [] →
      pauseVfs p = (some .Misuse, p) ∧ (pauseVfs p).2.paused = p.paused) ∧
    (p.openFiles = [] →
      (pauseVfs p).1 = none ∧ (pauseVfs p).2.paused = true) := by
  constructor
  · intro h
    have : p.openFiles.isEmpty = false := by
      cases hh : p.openFiles with
      | nil => exact absurd hh h
      | cons a b => rfl
    simp [pauseVfs, this]
  · intro h
    simp [pauseVfs, h]

/-- Witness for C5: pausing a pool with `/foo.db` open fails with
`Misuse` and leaves it unpaused; pausing the fresh (all-closed) pool
succeeds. -/
theorem c5_pause_precondition_witness :
    (pauseVfs { initialPool 6 with openFiles := ["/foo.db"] } =
        (some .Misuse, { initialPool 6 with openFiles := ["/foo.db"] }) ∧
      (pauseVfs { initialPool 6 with openFiles := ["/foo.db"] }).2.paused =
        { initialPool 6 with openFiles := ["/foo.db"] }.paused) ∧
    ((pauseVfs (initialPool 6)).1 = none ∧
      (pauseVfs (initialPool 6)).2.paused = true) :=
  ⟨(c5_pause_precondition { initialPool 6 with openFiles := ["/foo.db"] }).1
      (by decide),
   (c5_pause_precondition (initialPool 6)).2 rfl⟩

/-- Claim C8: for a pool with current capacity `c` and at least `n` free
slots, `addCapacity n` returns `c + n` and a later `getCapacity` reflects
that delta; `reduceCapacity n` succeeds returning `n` and a later
`getCapacity` reflects the reduction to `c - n`. -/
theorem c8_capacity_arithmetic (p : PoolState) (n : Nat)
    (hfree : n ≤ freeSlotCount p) :
    (addCapacity p n).1 = getCapacity p + n ∧
      getCapacity (addCapacity p n).2 = getCapacity p + n ∧
      ∃ p', reduceCapacity p n = .ok (n, p') ∧
        getCapacity p' = getCapacity p - n := by
  refine ⟨rfl, rfl, { p with capacity := p.capacity - n }, ?_, rfl⟩
  simp [reduceCapacity, hfree]

/-- Witness for C8: on a fresh pool of capacity 6 (all 6 slots free),
adding 2 yields 8 and reducing 2 returns 2 with capacity 4. -/
theorem c8_capacity_arithmetic_witness :
    (addCapacity (initialPool 6) 2).1 = getCapacity (initialPool 6) + 2 ∧
      getCapacity (addCapacity (initialPool 6) 2).2 = getCapacity (initialPool 6) + 2 ∧
      ∃ p', reduceCapacity (initialPool 6) 2 = .ok (2, p') ∧
        getCapacity p' = getCapacity (initialPool 6) - 2 :=
  c8_capacity_arithmetic (initialPool 6) 2 (by decide)

/-- Claim C10: `removeVfs` on an installed pool returns `true` exactly
once — the first call unregisters the VFS (the pool is no longer findable
by name) and returns `true`; every subsequent `removeVfs` call on the
(now removed) pool returns `false` and changes nothing. -/
theorem c10_removeVfs_once (p : PoolState) (hp : p.removed = false) :
    (removeVfs p).1 = true ∧
      (removeVfs p).2.registered = false ∧
      (removeVfs p).2.removed = true ∧
      (removeVfs (removeVfs p).2).1 = false ∧
      ∀ q : PoolState, q.removed = true →
        (removeVfs q).1 = false ∧ (removeVfs q).2 = q := by
  refine ⟨?_, ?_, ?_, ?_, ?_⟩ <;> simp [removeVfs, hp]
  intro q hq
  simp [removeVfs, hq]

/-- Witness for C10: on a fresh pool, the first `removeVfs` returns
`true` and detaches the VFS; the second returns `false`. -/
theorem c10_removeVfs_once_witness :
    (removeVfs (initialPool 6)).1 = true ∧
      (removeVfs (initialPool 6)).2.registered = false ∧
      (removeVfs (initialPool 6)).2.removed = true ∧
      (removeVfs (removeVfs (initialPool 6)).2).1 = false ∧
      ∀ q : PoolState, q.removed = true →
        (removeVfs q).1 = false ∧ (removeVfs q).2 = q :=
  c10_removeVfs_once (initialPool 6) rfl

/-- Claim C1: on a pool with capacity at least 6 (fresh: no associated
files, nothing open), opening a pooled database file succeeds; after
inserting 3 rows and closing it, the open-file count returns to its prior
value while the file stays persisted in the pool, and reopening the same
filename yields a database whose row count is still 3. -/
theorem c1_persistence_across_reopen (p : PoolState) (f : String)
    (hreg : p.registered = true) (hopen : p.openFiles = [])
    (hfiles : p.files = []) (hcap : 6 ≤ p.capacity) :
    (openDb p f).1 = none ∧
      (closeDb (insertRows (openDb p f).2 f [1, 2, 3]) f).openFiles = p.openFiles ∧
      (alookup f (closeDb (insertRows (openDb p f).2 f [1, 2, 3]) f).files).isSome
        = true ∧
      (openDb (closeDb (insertRows (openDb p f).2 f [1, 2, 3]) f) f).1 = none ∧
      rowCount (openDb (closeDb (insertRows (openDb p f).2 f [1, 2, 3]) f) f).2 f
        = 3 := by
  have hpos : 0 < p.capacity := lt_of_lt_of_le (by norm_num) hcap
  refine ⟨?_, ?_, ?_, ?_, ?_⟩ <;>
    simp [openDb, closeDb, insertRows, rowCount, removeFirst, alookup, aset,
      hreg, hopen, hfiles, hpos]

/-- Witness for C1: the scenario run on a fresh capacity-6 pool with the
file `/foo.db`. -/
theorem c1_persistence_across_reopen_witness :
    (openDb (initialPool 6) "/foo.db").1 = none ∧
      (closeDb (insertRows (openDb (initialPool 6) "/foo.db").2 "/foo.db" [1, 2, 3])
          "/foo.db").openFiles = (initialPool 6).openFiles ∧
      (alookup "/foo.db"
          (closeDb (insertRows (openDb (initialPool 6) "/foo.db").2 "/foo.db" [1, 2, 3])
            "/foo.db").files).isSome = true ∧
      (openDb (closeDb (insertRows (openDb (initialPool 6) "/foo.db").2 "/foo.db"
          [1, 2, 3]) "/foo.db") "/foo.db").1 = none ∧
      rowCount (openDb (closeDb (insertRows (openDb (initialPool 6) "/foo.db").2
          "/foo.db" [1, 2, 3]) "/foo.db") "/foo.db").2 "/foo.db" = 3 :=
  c1_persistence_across_reopen (initialPool 6) "/foo.db" rfl rfl rfl (by decide)

/-- Claim C6: while a pool is paused its registered backend is detached,
so every attempt to open a file through the pool fails until resume;
resuming an already-active (non-paused) pool is a no-op returning the
pool unchanged; after resuming the paused pool, opens succeed again. -/
theorem c6_paused_invariant (p : PoolState)
    (hopen : p.openFiles = []) (hcap : p.files.length < p.capacity) :
    (∀ f, ((openDb (pauseVfs p).2 f).1).isSome = true) ∧
      (∀ q : PoolState, q.paused = false → unpauseVfs q = q) ∧
      (∀ f, (openDb (unpauseVfs (pauseVfs p).2) f).1 = none) := by
  refine ⟨?_, ?_, ?_⟩
  · intro f
    simp [pauseVfs, hopen, openDb]
  · intro q hq
    simp [unpauseVfs, hq]
  · intro f
    cases hl : alookup f p.files with
    | none => simp [pauseVfs, hopen, unpauseVfs, openDb, hl, hcap]
    | some v => simp [pauseVfs, hopen, unpauseVfs, openDb, hl]

/-- Witness for C6: on a fresh capacity-6 pool, opening `/foo.db` fails
while paused, resuming an active pool is the identity, and opening
succeeds after resume. -/
theorem c6_paused_invariant_witness :
    (∀ f, ((openDb (pauseVfs (initialPool 6)).2 f).1).isSome = true) ∧
      (∀ q : PoolState, q.paused = false → unpauseVfs q = q) ∧
      (∀ f, (openDb (unpauseVfs (pauseVfs (initialPool 6)).2) f).1 = none) :=
  c6_paused_invariant (initialPool 6) rfl (by decide)

/-- Claim C4: two initialization requests for the same (fresh) pool name
converge on a single underlying pool instance — both callers receive the
same instance id, the registry is not duplicated by the second call — and
a capacity change made through one returned instance is observable
through the other (they are the same instance in the instance map). -/
theorem c4_init_convergence (r : Registry) (cfg : PoolConfig) (n : Nat)
    (hfresh : alookup cfg.name r.entries = none)
    (hok : cfg.throwInInit = none) :
    ∃ id,
      (installPool r cfg).2 = .ok id ∧
        (installPool (installPool r cfg).1 cfg).2 = .ok id ∧
        (installPool (installPool r cfg).1 cfg).1 = (installPool r cfg).1 ∧
        regGetCapacity (regAddCapacity (installPool r cfg).1 id n) id =
          regGetCapacity (installPool r cfg).1 id + n := by
  refine ⟨r.nextId, ?_, ?_, ?_, ?_⟩ <;>
    simp [installPool, runInit, regAddCapacity, regGetCapacity, addCapacity,
      hfresh, hok, alookup_aset_self]

/-- Witness for C4: installing the pool `pool-a` twice in an empty
registry yields the same instance id for both callers, and an
`addCapacity 2` through it is visible through the shared instance. -/
theorem c4_init_convergence_witness :
    ∃ id,
      (installPool ⟨[], [], 0⟩ ⟨"pool-a", 6, none, false⟩).2 = .ok id ∧
        (installPool (installPool ⟨[], [], 0⟩ ⟨"pool-a", 6, none, false⟩).1
            ⟨"pool-a", 6, none, false⟩).2 = .ok id ∧
        (installPool (installPool ⟨[], [], 0⟩ ⟨"pool-a", 6, none, false⟩).1
            ⟨"pool-a", 6, none, false⟩).1 =
          (installPool ⟨[], [], 0⟩ ⟨"pool-a", 6, none, false⟩).1 ∧
        regGetCapacity
            (regAddCapacity (installPool ⟨[], [], 0⟩ ⟨"pool-a", 6, none, false⟩).1 id 2)
            id =
          regGetCapacity (installPool ⟨[], [], 0⟩ ⟨"pool-a", 6, none, false⟩).1 id + 2 :=
  c4_init_convergence ⟨[], [], 0⟩ ⟨"pool-a", 6, none, false⟩ 2 rfl rfl

/-- Claim C7: when initializing a pool of a fresh name fails with error
value `e`, every subsequent initialization request for that name (without
the forced-reinit flag) returns the very same failure value, replayed
verbatim with the registry unchanged; once the forced-reinit flag is
supplied and the failure cause is gone, initialization is retried and
succeeds. -/
theorem c7_cached_failed_init (r : Registry) (cfg cfg₂ cfg₃ : PoolConfig) (e : Nat)
    (hfresh : alookup cfg.name r.entries = none)
    (hthrow : cfg.throwInInit = some e)
    (h₂name : cfg₂.name = cfg.name)
    (h₂force : cfg₂.forceReinitIfPreviouslyFailed = false)
    (h₃name : cfg₃.name = cfg.name)
    (h₃force : cfg₃.forceReinitIfPreviouslyFailed = true)
    (h₃ok : cfg₃.throwInInit = none) :
    (installPool r cfg).2 = .error e ∧
      installPool (installPool r cfg).1 cfg₂ = ((installPool r cfg).1, .error e) ∧
      ∃ id, (installPool (installPool r cfg).1 cfg₃).2 = .ok id := by
  refine ⟨?_, ?_, ?_⟩
  · simp [installPool, runInit, hfresh, hthrow]
  · simp [installPool, runInit, hfresh, hthrow, h₂name, h₂force, alookup_aset_self]
  · refine ⟨(installPool r cfg).1.nextId, ?_⟩
    simp [installPool, runInit, hfresh, hthrow, h₃name, h₃force, h₃ok,
      alookup_aset_self]

/-- Witness for C7: in an empty registry, initializing `pool-e` with the
throwing test hook fails with error value 42; a plain retry replays the
same cached failure; a forced-reinit retry without the hook succeeds. -/
theorem c7_cached_failed_init_witness :
    (installPool ⟨[], [], 0⟩ ⟨"pool-e", 6, some 42, false⟩).2 = .error 42 ∧
      installPool (installPool ⟨[], [], 0⟩ ⟨"pool-e", 6, some 42, false⟩).1
          ⟨"pool-e", 6, none, false⟩ =
        ((installPool ⟨[], [], 0⟩ ⟨"pool-e", 6, some 42, false⟩).1, .error 42) ∧
      ∃ id, (installPool (installPool ⟨[], [], 0⟩ ⟨"pool-e", 6, some 42, false⟩).1
          ⟨"pool-e", 6, none, true⟩).2 = .ok id :=
  c7_cached_failed_init ⟨[], [], 0⟩ ⟨"pool-e", 6, some 42, false⟩
    ⟨"pool-e", 6, none, false⟩ ⟨"pool-e", 6, none, true⟩ 42
    rfl rfl rfl rfl rfl rfl rfl

/-- Claim C9: `unlink(path, recursive?)` returns a boolean that is
`false` exactly when nothing was deleted — when it returns `false` the
tree is unchanged; when it returns `true` the entry existed and is gone
afterwards, so a second unlink of the same path returns `false`; and a
non-recursive unlink of a non-empty directory deletes nothing and
returns `false`. -/
theorem c9_unlink_semantics (es : List (String × Entry)) (path : List String)
    (rec : Bool) :
    ((unlinkAt es path rec).1 = false → (unlinkAt es path rec).2 = es) ∧
      ((unlinkAt es path rec).1 = true →
        (lookupAt es path).isSome = true ∧
          lookupAt (unlinkAt es path rec).2 path = none ∧
          unlinkAt (unlinkAt es path rec).2 path rec =
            (false, (unlinkAt es path rec).2)) ∧
      (∀ cs, lookupAt es path = some (.dir cs) → cs ≠ [] → rec = false →
        unlinkAt es path rec = (false, es)) := by
  refine ⟨unlinkAt_false_eq es path rec, ?_, ?_⟩
  · intro h
    obtain ⟨h1, h2⟩ := unlinkAt_true_lookup es path rec h
    exact ⟨h1, h2, unlinkAt_of_lookup_none _ path rec h2⟩
  · intro cs hcs hne hrec
    subst hrec
    exact unlinkAt_nonempty_dir es path cs hcs hne

/-- The directory tree the OPFS utility test builds: a root directory
holding `test/dir`, with `dir` empty and `test` non-empty. -/
def demoFs : List (String × Entry) :=
  [("t", .dir [("test", .dir [("dir", .dir [])])])]

/-- Witness for C9: non-recursively unlinking the non-empty directory
`t/test` fails and leaves the tree unchanged, while unlinking the empty
directory `t/test/dir` succeeds and the path is gone afterwards. -/
theorem c9_unlink_semantics_witness :
    unlinkAt demoFs ["t", "test"] false = (false, demoFs) ∧
      lookupAt (unlinkAt demoFs ["t", "test", "dir"] false).2
        ["t", "test", "dir"] = none :=
  ⟨(c9_unlink_semantics demoFs ["t", "test"] false).2.2 [("dir", .dir [])] rfl
      (List.cons_ne_nil _ _) rfl,
    ((c9_unlink_semantics demoFs ["t", "test", "dir"] false).2.1 rfl).2.1⟩

end WebSqlite
